import Mathlib

/-!
Shallow embedding of the IoT telemetry relay server
(HaiMessenger/server/storage.ts, HaiMessenger/server/routes.ts, and the
shared drizzle schema).

Modelling conventions:
* JS numbers carried by readings are rationals (`Rat`); timestamps are
  `Date.getTime()` values, i.e. integer milliseconds, modelled as `Int`
  and supplied explicitly as a `now` parameter wherever the source calls
  `new Date()`.
* `Map<number, T>` with ever-growing integer keys and no deletion is
  modelled as a `List T` in insertion order, which is exactly the
  iteration order of `Map.values()`.
* `Array.prototype.sort` with comparator `b.timestamp - a.timestamp` is
  the stable descending sort by timestamp (ECMAScript mandates sort
  stability), modelled by `List.insertionSort`, which is stable.
* Fallible JS paths (JSON.parse throwing, zod validation throwing) are
  modelled with `Option`.
-/

/-- One stored sensor reading (table `sensor_readings` of the shared schema,
materialised by `MemStorage.createSensorReading`). -/
structure SensorReading where
  id : Nat
  dhtTemperature : Option Rat
  lm35Temperature : Option Rat
  ledLevel : Rat
  timestamp : Int
  deriving Repr, DecidableEq

/-- One stored user (table `users` of the shared schema). -/
structure User where
  id : Nat
  username : String
  password : String
  deriving Repr, DecidableEq

/-- Candidate user accepted by `insertUserSchema` (username and password). -/
structure InsertUser where
  username : String
  password : String
  deriving Repr, DecidableEq

/-- Candidate reading as produced by `insertSensorReadingSchema.parse`.
For the two nullable temperature columns, `none` models an absent
(undefined) field, `some none` models JSON null and `some (some q)` a
number.  The `ledLevel` column is not-null with default, so after
validation it is either absent (`none`) or a number (`some q`). -/
structure InsertSensorReading where
  dhtTemperature : Option (Option Rat)
  lm35Temperature : Option (Option Rat)
  ledLevel : Option Rat
  deriving Repr, DecidableEq

/-- The in-memory storage backend `MemStorage`: two maps (modelled as
insertion-ordered lists) and the two id counters. -/
structure MemStorage where
  users : List User
  sensorReadings : List SensorReading
  currentUserId : Nat
  currentReadingId : Nat
  deriving Repr, DecidableEq

/-- The `MemStorage` constructor: empty maps, both counters at 1. -/
def emptyStorage : MemStorage :=
  { users := [], sensorReadings := [], currentUserId := 1, currentReadingId := 1 }

/-- `MemStorage.getUser`. -/
def getUser (st : MemStorage) (id : Nat) : Option User :=
  st.users.find? (fun u => u.id == id)

/-- `MemStorage.getUserByUsername`: first match in iteration order. -/
def getUserByUsername (st : MemStorage) (username : String) : Option User :=
  st.users.find? (fun u => u.username == username)

/-- `MemStorage.createUser`: take the next user id, build the record,
store it, return it.  The source performs no uniqueness check. -/
def createUser (st : MemStorage) (ins : InsertUser) : MemStorage × User :=
  let id := st.currentUserId
  let user : User := { id := id, username := ins.username, password := ins.password }
  ({ st with users := st.users ++ [user], currentUserId := id + 1 }, user)

/-- `MemStorage.createSensorReading`: take the next reading id, default the
optional fields (`?? null` for the temperatures, `?? 0` for the LED level),
stamp with the current time, store and return the record. -/
def createSensorReading (st : MemStorage) (ins : InsertSensorReading) (now : Int) :
    MemStorage × SensorReading :=
  let id := st.currentReadingId
  let reading : SensorReading :=
    { id := id
      dhtTemperature := ins.dhtTemperature.getD none
      lm35Temperature := ins.lm35Temperature.getD none
      ledLevel := ins.ledLevel.getD 0
      timestamp := now }
  ({ st with sensorReadings := st.sensorReadings ++ [reading],
             currentReadingId := id + 1 }, reading)

/-- The ordering used by the comparator `b.timestamp - a.timestamp`:
`a` sorts no later than `b` when `b`'s timestamp is at most `a`'s. -/
def tsDesc (a b : SensorReading) : Prop := b.timestamp ≤ a.timestamp

instance : DecidableRel tsDesc :=
  fun a b => inferInstanceAs (Decidable (b.timestamp ≤ a.timestamp))

instance : IsTotal SensorReading tsDesc :=
  ⟨fun a b => le_total b.timestamp a.timestamp⟩

instance : IsTrans SensorReading tsDesc :=
  ⟨fun _ _ _ h1 h2 => le_trans h2 h1⟩

/-- `readings.sort((a, b) => b.timestamp.getTime() - a.timestamp.getTime())`:
the stable descending sort by timestamp. -/
def sortByTimestampDesc (l : List SensorReading) : List SensorReading :=
  List.insertionSort tsDesc l

/-- JavaScript `arr.slice(0, e)`: a negative end index counts back from the
end of the array (clamped at 0). -/
def jsSliceTo {α : Type} (l : List α) (e : Int) : List α :=
  if e < 0 then l.take ((l.length : Int) + e).toNat else l.take e.toNat

/-- `MemStorage.getRecentSensorReadings(limit)`: sort all stored readings by
timestamp descending, then `slice(0, limit)`. -/
def getRecentSensorReadings (st : MemStorage) (limit : Int) : List SensorReading :=
  jsSliceTo (sortByTimestampDesc st.sensorReadings) limit

/-- One step of the reduce in `getLatestSensorReading`:
`current.timestamp.getTime() > latest.timestamp.getTime() ? current : latest`. -/
def latestStep (latest current : SensorReading) : SensorReading :=
  if latest.timestamp < current.timestamp then current else latest

/-- `readings.reduce(latestStep)` on the value list: JS `reduce` without an
initial value starts from the first element, so the empty list yields
`undefined` (the early return of the source). -/
def latestOf : List SensorReading → Option SensorReading
  | [] => none
  | r :: rs => some (rs.foldl latestStep r)

/-- `MemStorage.getLatestSensorReading`. -/
def getLatestSensorReading (st : MemStorage) : Option SensorReading :=
  latestOf st.sensorReadings

/-- The JavaScript value found at one of the three payload fields the intake
handler reads (`data.suhuDHT`, `data.suhuLM35`, `data.LED`): absent
(undefined), JSON null, a JSON number, or any other JSON value (string,
boolean, object, array) — the zod schema only inspects its type. -/
inductive JsValue where
  | undef
  | jsNull
  | num (q : Rat)
  | nonNum
  deriving Repr, DecidableEq

/-- Validator that drizzle-zod derives for a nullable column without default
(the two `real` temperature columns): `z.number().nullable().optional()`,
accepting a number, null, or an absent field. -/
def validateNullableNumber : JsValue → Option (Option (Option Rat))
  | .undef => some none
  | .jsNull => some (some none)
  | .num q => some (some (some q))
  | .nonNum => none

/-- Validator that drizzle-zod derives for the `led_level` column
(`integer().notNull().default(0)`): optional because the column has a
default, but not nullable because it is not-null, so JSON null is
rejected. -/
def validateLedLevel : JsValue → Option (Option Rat)
  | .undef => some none
  | .jsNull => none
  | .num q => some (some q)
  | .nonNum => none

/-- An inbound MQTT message as seen by the handler: either its payload fails
`JSON.parse` (or is a value on which reading `.suhuDHT` throws), or it
yields the three field values the handler projects out. -/
inductive MqttMessage where
  | malformed
  | object (suhuDHT suhuLM35 led : JsValue)
  deriving Repr, DecidableEq

/-- The decode pipeline of the message handler: `JSON.parse` followed by
`insertSensorReadingSchema.parse` on the three projected fields.  `none`
models the thrown exception landing in the catch block. -/
def decodeMessage : MqttMessage → Option InsertSensorReading
  | .malformed => none
  | .object d l led => do
      let dht ← validateNullableNumber d
      let lm ← validateNullableNumber l
      let lv ← validateLedLevel led
      pure { dhtTemperature := dht, lm35Temperature := lm, ledLevel := lv }

/-- A WebSocket connection handle: an identity and the transport
`readyState` (`WebSocket.OPEN` is 1). -/
structure WsConn where
  id : Nat
  readyState : Nat
  deriving Repr, DecidableEq

/-- `ws.readyState === WebSocket.OPEN`. -/
def WsConn.isOpen (c : WsConn) : Bool := c.readyState == 1

/-- A server→client envelope, distinguished by its `type` field. -/
inductive Envelope where
  | connectionStatus (status : String)
  | sensorData (data : SensorReading)
  deriving Repr, DecidableEq

/-- One send on the live channel: target connection id and envelope. -/
abbrev WsSend := Nat × Envelope

/-- The server state the handlers close over: the storage singleton and the
`wsConnections` set (a set of distinct handles, modelled as a list in
insertion order). -/
structure ServerState where
  store : MemStorage
  connections : List WsConn
  deriving Repr, DecidableEq

/-- The broadcast loop of the message handler:
`wsConnections.forEach(ws => if (ws.readyState === OPEN) ws.send(...))`;
sends a `sensor_data` envelope to every open handle, skips the rest. -/
def broadcastSends (conns : List WsConn) (r : SensorReading) : List WsSend :=
  conns.filterMap fun c =>
    if c.isOpen then some (c.id, Envelope.sensorData r) else none

/-- The whole `mqttClient.on('message')` handler: decode, and on success
store the reading and broadcast it; on any thrown error store nothing and
send nothing. -/
def processMessage (st : ServerState) (m : MqttMessage) (now : Int) :
    ServerState × List WsSend :=
  match decodeMessage m with
  | none => (st, [])
  | some ins =>
      let p := createSensorReading st.store ins now
      ({ st with store := p.1 }, broadcastSends st.connections p.2)

/-- The `wss.on('connection')` handler: register the handle, send it a
`connection_status` envelope, then fetch the latest stored reading and, if
one exists, send it a `sensor_data` envelope. -/
def onConnect (st : ServerState) (ws : WsConn) : ServerState × List WsSend :=
  let snapshot : List WsSend :=
    match getLatestSensorReading st.store with
    | some r => [(ws.id, Envelope.sensorData r)]
    | none => []
  ({ st with connections := st.connections ++ [ws] },
   (ws.id, Envelope.connectionStatus "connected") :: snapshot)

/-- ECMAScript StrWhiteSpace: WhiteSpace (TAB, VT, FF, SP, NBSP, ZWNBSP
and the Unicode Zs space separators) plus the LineTerminators LF, CR, LS
and PS. -/
def isJsWhitespace (c : Char) : Bool :=
  c == ' ' || c == '\t' || c == '\n' || c == '\r' ||
  c.toNat == 0x0B || c.toNat == 0x0C || c.toNat == 0xA0 ||
  c.toNat == 0x1680 || (0x2000 ≤ c.toNat && c.toNat ≤ 0x200A) ||
  c.toNat == 0x2028 || c.toNat == 0x2029 || c.toNat == 0x202F ||
  c.toNat == 0x205F || c.toNat == 0x3000 || c.toNat == 0xFEFF

/-- A radix-16 digit as accepted by `parseInt` with radix 16. -/
def isHexDigit (c : Char) : Bool :=
  c.isDigit || ('a' ≤ c && c ≤ 'f') || ('A' ≤ c && c ≤ 'F')

/-- Numeric value of a radix-16 digit (also correct on the radix-10
digits). -/
def hexDigitVal (c : Char) : Nat :=
  if c.isDigit then c.toNat - 48
  else if 'a' ≤ c && c ≤ 'f' then c.toNat - 87
  else c.toNat - 55

/-- Digit-run accumulation in the given radix. -/
def digitsToNatBase (base : Nat) (ds : List Char) : Nat :=
  ds.foldl (fun acc c => acc * base + hexDigitVal c) 0

/-- JavaScript `parseInt(string)` with no radix argument: strip leading
StrWhiteSpace, read an optional sign, switch to radix 16 when a `0x` or
`0X` prefix follows, then take the longest run of digits of the radix in
force; an empty run means NaN (`none`), otherwise the signed value of the
run (any trailing garbage is ignored). -/
def jsParseInt (s : String) : Option Int :=
  let cs := s.toList.dropWhile isJsWhitespace
  let signed : Int × List Char :=
    match cs with
    | '-' :: t => (-1, t)
    | '+' :: t => (1, t)
    | _ => (1, cs)
  let based : Nat × List Char :=
    match signed.2 with
    | '0' :: 'x' :: t => (16, t)
    | '0' :: 'X' :: t => (16, t)
    | t => (10, t)
  let digits := based.2.takeWhile fun c => if based.1 == 16 then isHexDigit c else c.isDigit
  if digits.isEmpty then none
  else some (signed.1 * (digitsToNatBase based.1 digits : Int))

/-- `parseInt(req.query.limit as string) || 20`: an absent parameter gives
NaN, and `|| 20` replaces the falsy values NaN and 0 with 20. -/
def effectiveLimit (limitParam : Option String) : Int :=
  match limitParam with
  | none => 20
  | some s =>
      match jsParseInt s with
      | none => 20
      | some n => if n = 0 then 20 else n

/-- The `GET /api/readings/recent` handler body on the success path. -/
def recentHandler (st : MemStorage) (limitParam : Option String) : List SensorReading :=
  getRecentSensorReadings st (effectiveLimit limitParam)

/-- A sequence of `createSensorReading` calls (each with its insert payload
and clock value), returning the final store and the returned readings in
call order. -/
def runCreates (st : MemStorage) : List (InsertSensorReading × Int) → MemStorage × List SensorReading
  | [] => (st, [])
  | (ins, t) :: rest =>
      let p := createSensorReading st ins t
      let q := runCreates p.1 rest
      (q.1, p.2 :: q.2)

/-- Concrete reading fixture: id 1, timestamp 100. -/
def exReadingA : SensorReading :=
  { id := 1, dhtTemperature := none, lm35Temperature := none, ledLevel := 0, timestamp := 100 }

/-- Concrete reading fixture: id 2, same timestamp 100 as `exReadingA`. -/
def exReadingB : SensorReading :=
  { id := 2, dhtTemperature := none, lm35Temperature := none, ledLevel := 2, timestamp := 100 }

/-- Concrete reading fixture: id 3, older timestamp 50. -/
def exReadingC : SensorReading :=
  { id := 3, dhtTemperature := none, lm35Temperature := none, ledLevel := 1, timestamp := 50 }

/-- Store fixture holding the single reading `exReadingA`. -/
def exStore1 : MemStorage :=
  { users := [], sensorReadings := [exReadingA], currentUserId := 1, currentReadingId := 2 }

/-- Store fixture holding two readings with equal timestamps. -/
def exStoreTie : MemStorage :=
  { users := [], sensorReadings := [exReadingA, exReadingB], currentUserId := 1, currentReadingId := 3 }

/-- Store fixture holding two readings with distinct timestamps. -/
def exStoreAC : MemStorage :=
  { users := [], sensorReadings := [exReadingA, exReadingC], currentUserId := 1, currentReadingId := 4 }

/-- Store fixture holding one user named alice. -/
def exUserStore : MemStorage :=
  { users := [{ id := 1, username := "alice", password := "pw1" }],
    sensorReadings := [], currentUserId := 2, currentReadingId := 1 }

/-- Server fixture: one stored reading, one open and one closed connection. -/
def exServer : ServerState :=
  { store := exStore1,
    connections := [{ id := 10, readyState := 1 }, { id := 11, readyState := 3 }] }

/-- Server fixture with an empty store and no connections. -/
def exServerEmpty : ServerState :=
  { store := emptyStorage, connections := [] }

/-! Helper lemmas about the reduce step of `getLatestSensorReading`. -/

/-- The kept candidate's timestamp never drops below the left argument's. -/
theorem latestStep_le_left (r c : SensorReading) :
    r.timestamp ≤ (latestStep r c).timestamp := by
  unfold latestStep
  split <;> omega

/-- The kept candidate's timestamp never drops below the right argument's. -/
theorem latestStep_le_right (r c : SensorReading) :
    c.timestamp ≤ (latestStep r c).timestamp := by
  unfold latestStep
  split <;> omega

/-- The reduce step returns one of its two arguments. -/
theorem latestStep_cases (r c : SensorReading) :
    latestStep r c = r ∨ latestStep r c = c := by
  unfold latestStep
  split
  · exact Or.inr rfl
  · exact Or.inl rfl

/-- The reduce keeps the left argument on a timestamp tie (and whenever the
right one is not strictly newer). -/
theorem latestStep_eq_left (r c : SensorReading) (h : ¬ r.timestamp < c.timestamp) :
    latestStep r c = r := by
  unfold latestStep
  simp [h]

/-- The result of the reduce is one of the reduced elements. -/
theorem foldl_latestStep_mem (r : SensorReading) (rs : List SensorReading) :
    rs.foldl latestStep r ∈ r :: rs := by
  induction rs generalizing r with
  | nil => simp
  | cons c t ih =>
      rw [List.foldl_cons]
      rcases List.mem_cons.mp (ih (latestStep r c)) with h1 | h1
      · rcases latestStep_cases r c with he | he
        · rw [he] at h1 ⊢
          rw [h1]
          exact List.mem_cons_self _ _
        · rw [he] at h1 ⊢
          rw [h1]
          exact List.mem_cons_of_mem _ (List.mem_cons_self _ _)
      · exact List.mem_cons_of_mem _ (List.mem_cons_of_mem _ h1)

/-- The result of the reduce has a maximal timestamp among the reduced
elements. -/
theorem foldl_latestStep_ge (r : SensorReading) (rs : List SensorReading) :
    ∀ s ∈ r :: rs, s.timestamp ≤ (rs.foldl latestStep r).timestamp := by
  induction rs generalizing r with
  | nil =>
      intro s hs
      simp only [List.mem_singleton] at hs
      rw [hs, List.foldl_nil]
  | cons c t ih =>
      intro s hs
      rw [List.foldl_cons]
      have key := ih (latestStep r c)
      rcases List.mem_cons.mp hs with h1 | h1
      · rw [h1]
        exact le_trans (latestStep_le_left r c) (key _ (List.mem_cons_self _ _))
      · rcases List.mem_cons.mp h1 with h2 | h2
        · rw [h2]
          exact le_trans (latestStep_le_right r c) (key _ (List.mem_cons_self _ _))
        · exact key s (List.mem_cons_of_mem _ h2)

/-- Among elements tying the maximal timestamp, the reduce returns the one
with the least id, provided ids strictly increase along the list. -/
theorem foldl_latestStep_firstmax (r : SensorReading) (rs : List SensorReading)
    (h : (r :: rs).Pairwise fun a b => a.id < b.id) :
    ∀ s ∈ r :: rs, s.timestamp = (rs.foldl latestStep r).timestamp →
      (rs.foldl latestStep r).id ≤ s.id := by
  induction rs generalizing r with
  | nil =>
      intro s hs _
      simp only [List.mem_singleton] at hs
      rw [hs, List.foldl_nil]
  | cons c t ih =>
      rw [List.pairwise_cons] at h
      obtain ⟨hr, hct⟩ := h
      have hc := (List.pairwise_cons.mp hct).1
      have ht := (List.pairwise_cons.mp hct).2
      have hpair : ((latestStep r c) :: t).Pairwise fun a b => a.id < b.id := by
        rw [List.pairwise_cons]
        refine ⟨?_, ht⟩
        intro x hx
        rcases latestStep_cases r c with he | he <;> rw [he]
        · exact hr x (List.mem_cons_of_mem _ hx)
        · exact hc x hx
      have key := ih (latestStep r c) hpair
      intro s hs hts
      rw [List.foldl_cons] at hts ⊢
      rcases List.mem_cons.mp hs with h1 | h1
      · subst h1
        by_cases hrc : s.timestamp < c.timestamp
        · exfalso
          have hcle : c.timestamp ≤ (t.foldl latestStep (latestStep s c)).timestamp :=
            le_trans (latestStep_le_right s c)
              (foldl_latestStep_ge (latestStep s c) t _ (List.mem_cons_self _ _))
          omega
        · have he := latestStep_eq_left s c hrc
          refine key s ?_ hts
          rw [he]
          exact List.mem_cons_self _ _
      · rcases List.mem_cons.mp h1 with h2 | h2
        · subst h2
          by_cases hrc : r.timestamp < s.timestamp
          · have he : latestStep r s = s := by
              unfold latestStep
              simp [hrc]
            refine key s ?_ hts
            rw [he]
            exact List.mem_cons_self _ _
          · have he := latestStep_eq_left r s hrc
            have hrle : r.timestamp ≤ (t.foldl latestStep (latestStep r s)).timestamp := by
              rw [he]
              exact foldl_latestStep_ge r t r (List.mem_cons_self _ _)
            have hsle : s.timestamp ≤ r.timestamp := by omega
            have hrts : r.timestamp = (t.foldl latestStep (latestStep r s)).timestamp := by omega
            have h3 : (t.foldl latestStep (latestStep r s)).id ≤ r.id := by
              refine key r ?_ hrts
              rw [he]
              exact List.mem_cons_self _ _
            have h4 := hr s (List.mem_cons_self _ _)
            omega
        · exact key s (List.mem_cons_of_mem _ h2) hts

/-- Claim C5: `getLatestSensorReading` returns absent exactly when no
readings exist, and otherwise returns a stored reading whose `observedAt`
timestamp is maximal among all stored readings. -/
theorem C5_latest_reading_correct (st : MemStorage) :
    (st.sensorReadings = [] → getLatestSensorReading st = none) ∧
    (st.sensorReadings ≠ [] → ∃ r, getLatestSensorReading st = some r) ∧
    ∀ r, getLatestSensorReading st = some r →
      r ∈ st.sensorReadings ∧ ∀ s ∈ st.sensorReadings, s.timestamp ≤ r.timestamp := by
  unfold getLatestSensorReading
  refine ⟨?_, ?_, ?_⟩
  · intro h
    rw [h]
    rfl
  · intro h
    cases hm : st.sensorReadings with
    | nil => exact absurd hm h
    | cons a t => exact ⟨t.foldl latestStep a, rfl⟩
  · intro r hr
    cases hm : st.sensorReadings with
    | nil => simp [latestOf, hm] at hr
    | cons a t =>
        rw [hm] at hr
        simp only [latestOf, Option.some.injEq] at hr
        constructor
        · rw [← hr]
          exact foldl_latestStep_mem a t
        · intro s hs
          rw [← hr]
          exact foldl_latestStep_ge a t s hs

/-- Witness for C5 at a concrete one-reading store. -/
theorem C5_latest_reading_correct_witness :
    exReadingA ∈ exStore1.sensorReadings ∧
      ∀ s ∈ exStore1.sensorReadings, s.timestamp ≤ exReadingA.timestamp :=
  (C5_latest_reading_correct exStore1).2.2 exReadingA (by decide)

/-- Claim C10: when several stored readings tie for the maximal
`observedAt`, `getLatestSensorReading` returns the earliest-created of
them — the one with the smallest id — because the reduce keeps the current
candidate on a tie and the store lists readings in increasing-id creation
order. -/
theorem C10_tie_breaks_to_smallest_id (st : MemStorage)
    (hid : st.sensorReadings.Pairwise fun a b => a.id < b.id)
    (r : SensorReading) (hr : getLatestSensorReading st = some r) :
    r ∈ st.sensorReadings ∧
    (∀ s ∈ st.sensorReadings, s.timestamp ≤ r.timestamp) ∧
    ∀ s ∈ st.sensorReadings, s.timestamp = r.timestamp → r.id ≤ s.id := by
  unfold getLatestSensorReading at hr
  cases hm : st.sensorReadings with
  | nil => simp [latestOf, hm] at hr
  | cons a t =>
      rw [hm] at hr hid
      simp only [latestOf, Option.some.injEq] at hr
      refine ⟨?_, ?_, ?_⟩
      · rw [← hr]
        exact foldl_latestStep_mem a t
      · intro s hs
        rw [← hr]
        exact foldl_latestStep_ge a t s hs
      · intro s hs hts
        rw [← hr] at hts ⊢
        exact foldl_latestStep_firstmax a t hid s hs hts

/-- Witness for C10 at a concrete store with a two-way timestamp tie:
the reading with id 1 is returned, not the one with id 2. -/
theorem C10_tie_breaks_to_smallest_id_witness :
    exReadingA ∈ exStoreTie.sensorReadings ∧
    (∀ s ∈ exStoreTie.sensorReadings, s.timestamp ≤ exReadingA.timestamp) ∧
    ∀ s ∈ exStoreTie.sensorReadings, s.timestamp = exReadingA.timestamp →
      exReadingA.id ≤ s.id :=
  C10_tie_breaks_to_smallest_id exStoreTie (by decide) exReadingA (by decide)

/-- Every reading returned by a run of creations has an id at least the
starting value of the id counter. -/
theorem runCreates_counter_le (st : MemStorage) (ops : List (InsertSensorReading × Int)) :
    ∀ r ∈ (runCreates st ops).2, st.currentReadingId ≤ r.id := by
  induction ops generalizing st with
  | nil =>
      intro r hr
      simp [runCreates] at hr
  | cons op rest ih =>
      intro r hr
      obtain ⟨ins, t⟩ := op
      simp only [runCreates] at hr
      rcases List.mem_cons.mp hr with h | h
      · rw [h]
        simp [createSensorReading]
      · have h2 := ih (createSensorReading st ins t).1 r h
        simp [createSensorReading] at h2
        omega

/-- Claim C4: across any sequence of `createSensorReading` calls, every
returned id is strictly greater than every earlier one, so ids are
pairwise distinct and never reused. -/
theorem C4_ids_strictly_increasing (st : MemStorage) (ops : List (InsertSensorReading × Int)) :
    (runCreates st ops).2.Pairwise (fun a b => a.id < b.id) ∧
    ((runCreates st ops).2.map SensorReading.id).Nodup := by
  have hp : (runCreates st ops).2.Pairwise fun a b => a.id < b.id := by
    induction ops generalizing st with
    | nil => simp [runCreates]
    | cons op rest ih =>
        obtain ⟨ins, t⟩ := op
        simp only [runCreates]
        rw [List.pairwise_cons]
        refine ⟨?_, ih _⟩
        intro r hr
        have h1 := runCreates_counter_le (createSensorReading st ins t).1 rest r hr
        simp [createSensorReading] at h1 ⊢
        omega
  refine ⟨hp, ?_⟩
  show ((runCreates st ops).2.map SensorReading.id).Pairwise (· ≠ ·)
  rw [List.pairwise_map]
  exact hp.imp fun h => Nat.ne_of_lt h

/-- Claim C6: for every positive limit `k`, `getRecentSensorReadings k`
returns exactly `min k N` readings sorted descending by timestamp, the
returned and left-out readings together are a permutation of the store, no
left-out reading is newer than any returned one, and when `N ≤ k` all
stored readings are returned. -/
theorem C6_recent_readings_correct (st : MemStorage) (k : Int) (hk : 0 < k) :
    (getRecentSensorReadings st k).length = min k.toNat st.sensorReadings.length ∧
    (getRecentSensorReadings st k).Pairwise tsDesc ∧
    (∃ rest, ((getRecentSensorReadings st k) ++ rest).Perm st.sensorReadings ∧
      ∀ a ∈ getRecentSensorReadings st k, ∀ b ∈ rest, b.timestamp ≤ a.timestamp) ∧
    (st.sensorReadings.length ≤ k.toNat →
      (getRecentSensorReadings st k).Perm st.sensorReadings) := by
  have hnn : ¬ (k < 0) := by omega
  have heq : getRecentSensorReadings st k
      = (sortByTimestampDesc st.sensorReadings).take k.toNat := by
    simp [getRecentSensorReadings, jsSliceTo, hnn]
  have hperm : (sortByTimestampDesc st.sensorReadings).Perm st.sensorReadings :=
    List.perm_insertionSort tsDesc _
  have hsorted : List.Sorted tsDesc (sortByTimestampDesc st.sensorReadings) :=
    List.sorted_insertionSort tsDesc _
  have hlen := hperm.length_eq
  refine ⟨?_, ?_, ?_, ?_⟩
  · rw [heq, List.length_take, hlen]
  · rw [heq]
    exact List.Pairwise.sublist (List.take_sublist _ _) hsorted
  · refine ⟨(sortByTimestampDesc st.sensorReadings).drop k.toNat, ?_, ?_⟩
    · rw [heq, List.take_append_drop]
      exact hperm
    · intro a ha b hb
      rw [heq] at ha
      have hp2 : List.Pairwise tsDesc
          ((sortByTimestampDesc st.sensorReadings).take k.toNat ++
            (sortByTimestampDesc st.sensorReadings).drop k.toNat) := by
        rw [List.take_append_drop]
        exact hsorted
      exact (List.pairwise_append.mp hp2).2.2 a ha b hb
  · intro hle
    rw [heq, List.take_of_length_le (by omega)]
    exact hperm

/-- Witness for C6 at a concrete two-reading store with limit 1. -/
theorem C6_recent_readings_correct_witness :
    (getRecentSensorReadings exStoreAC 1).length =
        min (1 : Int).toNat exStoreAC.sensorReadings.length ∧
    (getRecentSensorReadings exStoreAC 1).Pairwise tsDesc :=
  ⟨(C6_recent_readings_correct exStoreAC 1 (by decide)).1,
   (C6_recent_readings_correct exStoreAC 1 (by decide)).2.1⟩

/-- Sanity checks of the `parseInt` model against the reference behaviour
of `parseInt` itself: hex prefixes parse in radix 16 (also signed), a
vertical-tab-led decimal still parses, a bare hex prefix is NaN, and
trailing garbage is ignored. -/
theorem jsParseInt_reference_cases :
    jsParseInt "0x10" = some 16 ∧
    jsParseInt "-0X1a" = some (-26) ∧
    jsParseInt "\x0B42" = some 42 ∧
    jsParseInt "0x" = none ∧
    jsParseInt "12px" = some 12 := by
  refine ⟨by decide, by decide, by decide, by decide, by decide⟩

/-- Counterexample to claim C1: the limit parameter "-1" parses to the
non-positive integer -1, which is truthy in JS, so `parseInt(x) || 20`
keeps -1 and the handler queries the store with it; `slice(0, -1)` then
drops the last sorted reading instead of taking 20, so the response
differs from the limit=20 response on a one-reading store. -/
theorem C1_counterexample :
    jsParseInt "-1" = some (-1) ∧
    recentHandler exStore1 (some "-1") = [] ∧
    recentHandler exStore1 (some "20") = [exReadingA] ∧
    recentHandler exStore1 (some "-1") ≠ recentHandler exStore1 (some "20") :=
  ⟨by decide, by decide, by decide, by decide⟩

/-- Claim C1 as amended: the default of 20 applies exactly to the falsy
results of `parseInt` — an absent parameter, a non-numeric one (NaN), or
one parsing to 0 — and such requests return the same sequence as
limit=20.  A parameter parsing to a negative integer is instead passed
through to the store. -/
theorem C1_amended_default_limit (st : MemStorage) (p : Option String)
    (h : p = none ∨ ∃ s, p = some s ∧ (jsParseInt s = none ∨ jsParseInt s = some 0)) :
    recentHandler st p = getRecentSensorReadings st 20 := by
  rcases h with rfl | ⟨s, rfl, hs⟩
  · rfl
  · rcases hs with hs | hs <;> simp [recentHandler, effectiveLimit, hs]

/-- Witness for the amended C1: a non-numeric limit parameter on a
concrete store yields the limit=20 response. -/
theorem C1_amended_default_limit_witness :
    recentHandler exStore1 (some "abc") = getRecentSensorReadings exStore1 20 :=
  C1_amended_default_limit exStore1 (some "abc") (Or.inr ⟨"abc", rfl, Or.inl (by decide)⟩)

/-- Counterexample to claim C2: creating the username "alice" twice
succeeds both times — `MemStorage.createUser` performs no uniqueness check
and has no failure path — leaving two stored users with the same
username instead of surfacing a duplicate-key error. -/
theorem C2_counterexample :
    (createUser (createUser emptyStorage ⟨"alice", "pw1"⟩).1 ⟨"alice", "pw2"⟩).2.username
      = "alice" ∧
    ((createUser (createUser emptyStorage ⟨"alice", "pw1"⟩).1 ⟨"alice", "pw2"⟩).1.users.filter
        (fun u => u.username == "alice")).length = 2 :=
  ⟨by decide, by decide⟩

/-- Claim C2 as amended: `createUser` never fails; even when the candidate
username is already stored, it appends a second user with that username
under a fresh id, so at least two stored users then carry it.  Username
uniqueness exists only as a declared schema constraint, unenforced by the
in-memory store. -/
theorem C2_amended_duplicate_user_persisted (st : MemStorage) (ins : InsertUser)
    (h : ∃ u ∈ st.users, u.username = ins.username) :
    (createUser st ins).2.username = ins.username ∧
    (createUser st ins).1.users = st.users ++ [(createUser st ins).2] ∧
    2 ≤ ((createUser st ins).1.users.filter (fun u => u.username == ins.username)).length := by
  obtain ⟨u, hu, hname⟩ := h
  refine ⟨rfl, rfl, ?_⟩
  have hmem : u ∈ st.users.filter (fun u => u.username == ins.username) :=
    List.mem_filter.mpr ⟨hu, by simp [hname]⟩
  have h1 := List.length_pos_of_mem hmem
  have hpx : (((createUser st ins).2.username == ins.username) = true) := by
    simp [createUser]
  have hfl : (createUser st ins).1.users.filter (fun u => u.username == ins.username)
      = st.users.filter (fun u => u.username == ins.username) ++ [(createUser st ins).2] := by
    show ((st.users ++ [(createUser st ins).2]).filter fun u => u.username == ins.username) = _
    rw [List.filter_append]
    simp [List.filter_cons, hpx]
  rw [hfl, List.length_append]
  simp only [List.length_singleton]
  omega

/-- Witness for the amended C2 at a concrete store already holding an
alice user. -/
theorem C2_amended_duplicate_user_persisted_witness :
    2 ≤ ((createUser exUserStore ⟨"alice", "pw2"⟩).1.users.filter
        (fun u => u.username == "alice")).length :=
  (C2_amended_duplicate_user_persisted exUserStore ⟨"alice", "pw2"⟩
    ⟨⟨1, "alice", "pw1"⟩, by decide, rfl⟩).2.2

/-- Claim C3: an upstream message that fails JSON parsing or schema
validation stores no reading, broadcasts nothing, leaves the whole server
state unchanged, and has no effect on the processing of any later
message. -/
theorem C3_invalid_message_no_effect (st : ServerState) (m : MqttMessage) (now : Int)
    (h : decodeMessage m = none) :
    processMessage st m now = (st, []) ∧
    ∀ m2 now2, processMessage (processMessage st m now).1 m2 now2
      = processMessage st m2 now2 := by
  have h1 : processMessage st m now = (st, []) := by
    simp [processMessage, h]
  exact ⟨h1, fun m2 now2 => by rw [h1]⟩

/-- Witness for C3: a payload with a non-numeric temperature field leaves
the concrete server state untouched, and a following valid payload is
processed exactly as it would have been without the bad one. -/
theorem C3_invalid_message_no_effect_witness :
    processMessage exServer (MqttMessage.object JsValue.nonNum JsValue.undef JsValue.undef) 7
      = (exServer, []) ∧
    processMessage
        (processMessage exServer
          (MqttMessage.object JsValue.nonNum JsValue.undef JsValue.undef) 7).1
        (MqttMessage.object (JsValue.num 26) JsValue.undef (JsValue.num 2)) 8
      = processMessage exServer
          (MqttMessage.object (JsValue.num 26) JsValue.undef (JsValue.num 2)) 8 :=
  ⟨(C3_invalid_message_no_effect exServer _ 7 (by decide)).1,
   (C3_invalid_message_no_effect exServer _ 7 (by decide)).2 _ 8⟩

/-- Characterisation of membership in the broadcast send list. -/
theorem mem_broadcastSends (conns : List WsConn) (r : SensorReading) (p : WsSend) :
    p ∈ broadcastSends conns r ↔
      ∃ c ∈ conns, c.isOpen = true ∧ p = (c.id, Envelope.sensorData r) := by
  simp only [broadcastSends, List.mem_filterMap]
  constructor
  · rintro ⟨c, hc, hf⟩
    cases hio : c.isOpen with
    | false =>
        rw [hio] at hf
        simp at hf
    | true =>
        rw [hio] at hf
        simp at hf
        exact ⟨c, hc, hio, hf.symm⟩
  · rintro ⟨c, hc, ho, rfl⟩
    refine ⟨c, hc, ?_⟩
    rw [ho]
    simp

/-- The broadcast loop sends exactly to the open connections, in order. -/
theorem broadcastSends_eq_map_filter (conns : List WsConn) (r : SensorReading) :
    broadcastSends conns r
      = (conns.filter (fun c => c.isOpen)).map (fun c => (c.id, Envelope.sensorData r)) := by
  induction conns with
  | nil => rfl
  | cons a t ih =>
      cases hao : a.isOpen with
      | false =>
          rw [show broadcastSends (a :: t) r = broadcastSends t r by
                simp [broadcastSends, List.filterMap_cons, hao],
              List.filter_cons]
          simp [hao, ih]
      | true =>
          rw [show broadcastSends (a :: t) r
                = (a.id, Envelope.sensorData r) :: broadcastSends t r by
                simp [broadcastSends, List.filterMap_cons, hao],
              List.filter_cons]
          simp [hao, ih]

/-- Each open connection receives the envelope exactly once, given that
registered handles are distinct. -/
theorem count_broadcastSends (conns : List WsConn) (r : SensorReading) (c : WsConn)
    (hd : conns.Pairwise fun a b => a.id ≠ b.id) (hc : c ∈ conns) (ho : c.isOpen = true) :
    (broadcastSends conns r).count (c.id, Envelope.sensorData r) = 1 := by
  induction conns with
  | nil => simp at hc
  | cons a t ih =>
      rw [List.pairwise_cons] at hd
      obtain ⟨ha, ht⟩ := hd
      rcases List.mem_cons.mp hc with rfl | hct
      · have hbs : broadcastSends (c :: t) r
            = (c.id, Envelope.sensorData r) :: broadcastSends t r := by
          simp [broadcastSends, List.filterMap_cons, ho]
        have hz : (broadcastSends t r).count (c.id, Envelope.sensorData r) = 0 := by
          rw [List.count_eq_zero]
          intro hmem
          rw [mem_broadcastSends] at hmem
          obtain ⟨c2, hc2, _, heq⟩ := hmem
          exact ha c2 hc2 (congrArg Prod.fst heq)
        rw [hbs, List.count_cons_self, hz]
      · have h0 : a.id ≠ c.id := ha c hct
        cases hao : a.isOpen with
        | false =>
            have hbs : broadcastSends (a :: t) r = broadcastSends t r := by
              simp [broadcastSends, List.filterMap_cons, hao]
            rw [hbs]
            exact ih ht hct
        | true =>
            have hbs : broadcastSends (a :: t) r
                = (a.id, Envelope.sensorData r) :: broadcastSends t r := by
              simp [broadcastSends, List.filterMap_cons, hao]
            rw [hbs, List.count_cons, ih ht hct]
            simp
            exact h0

/-- Claim C7: broadcasting a stored reading sends one `sensor_data`
envelope carrying that reading to each registered open handle (so K sends
when all K handles are open), sends nothing to non-open handles, and the
registered connection set is never changed by message processing. -/
theorem C7_broadcast_to_open_handles (st : ServerState) (r : SensorReading)
    (hd : st.connections.Pairwise fun a b => a.id ≠ b.id) :
    (broadcastSends st.connections r).length
        = (st.connections.filter (fun c => c.isOpen)).length ∧
    ((∀ c ∈ st.connections, c.isOpen = true) →
      (broadcastSends st.connections r).length = st.connections.length) ∧
    (∀ c ∈ st.connections, c.isOpen = true →
      (broadcastSends st.connections r).count (c.id, Envelope.sensorData r) = 1) ∧
    (∀ c ∈ st.connections, c.isOpen = false →
      ∀ e : Envelope, (c.id, e) ∉ broadcastSends st.connections r) ∧
    (∀ p ∈ broadcastSends st.connections r, p.2 = Envelope.sensorData r) ∧
    ∀ m now, (processMessage st m now).1.connections = st.connections := by
  refine ⟨?_, ?_, ?_, ?_, ?_, ?_⟩
  · rw [broadcastSends_eq_map_filter, List.length_map]
  · intro hall
    rw [broadcastSends_eq_map_filter, List.length_map, List.filter_eq_self.mpr hall]
  · intro c hc ho
    exact count_broadcastSends st.connections r c hd hc ho
  · intro c hc ho e hmem
    rw [mem_broadcastSends] at hmem
    obtain ⟨c2, hc2, ho2, heq⟩ := hmem
    have hid : c.id = c2.id := congrArg Prod.fst heq
    by_cases hcc : c = c2
    · rw [hcc] at ho
      rw [ho] at ho2
      exact Bool.false_ne_true ho2
    · have hsym : Symmetric fun a b : WsConn => a.id ≠ b.id := fun _ _ h => h.symm
      exact hd.forall hsym hc hc2 hcc hid
  · intro p hp
    rw [mem_broadcastSends] at hp
    obtain ⟨c2, _, _, heq⟩ := hp
    rw [heq]
  · intro m now
    unfold processMessage
    cases decodeMessage m <;> rfl

/-- Witness for C7 on a concrete server with one open and one closed
connection: the open handle receives the envelope exactly once and the
closed one receives nothing. -/
theorem C7_broadcast_to_open_handles_witness :
    (broadcastSends exServer.connections exReadingA).count
        ((10 : Nat), Envelope.sensorData exReadingA) = 1 ∧
    ∀ e : Envelope, ((11 : Nat), e) ∉ broadcastSends exServer.connections exReadingA :=
  ⟨(C7_broadcast_to_open_handles exServer exReadingA (by decide)).2.2.1
      { id := 10, readyState := 1 } (by decide) (by decide),
   (C7_broadcast_to_open_handles exServer exReadingA (by decide)).2.2.2.1
      { id := 11, readyState := 3 } (by decide) (by decide)⟩

/-- Claim C8: a new connection is registered (with the store untouched) and
first receives exactly one `connection_status` envelope with status
"connected"; when the latest-reading fetch yields a reading it then
receives exactly one `sensor_data` envelope with that latest (maximal
timestamp) reading, and when the store is empty it receives no snapshot
envelope at all. -/
theorem C8_connect_registers_and_snapshots (st : ServerState) (ws : WsConn) :
    (onConnect st ws).1.connections = st.connections ++ [ws] ∧
    (onConnect st ws).1.store = st.store ∧
    (onConnect st ws).2 = (ws.id, Envelope.connectionStatus "connected") ::
      (match getLatestSensorReading st.store with
       | some r => [(ws.id, Envelope.sensorData r)]
       | none => []) ∧
    (st.store.sensorReadings = [] →
      (onConnect st ws).2 = [(ws.id, Envelope.connectionStatus "connected")]) ∧
    ∀ r, getLatestSensorReading st.store = some r →
      (onConnect st ws).2 = [(ws.id, Envelope.connectionStatus "connected"),
                            (ws.id, Envelope.sensorData r)] ∧
      r ∈ st.store.sensorReadings ∧
      ∀ s ∈ st.store.sensorReadings, s.timestamp ≤ r.timestamp := by
  refine ⟨rfl, rfl, rfl, ?_, ?_⟩
  · intro h
    simp [onConnect, getLatestSensorReading, latestOf, h]
  · intro r hr
    have hmain : r ∈ st.store.sensorReadings ∧
        ∀ s ∈ st.store.sensorReadings, s.timestamp ≤ r.timestamp := by
      unfold getLatestSensorReading at hr
      cases hm : st.store.sensorReadings with
      | nil => simp [latestOf, hm] at hr
      | cons a t =>
          rw [hm] at hr
          simp only [latestOf, Option.some.injEq] at hr
          constructor
          · rw [← hr]
            exact foldl_latestStep_mem a t
          · intro s hs
            rw [← hr]
            exact foldl_latestStep_ge a t s hs
    exact ⟨by simp [onConnect, hr], hmain.1, hmain.2⟩

/-- Witness for C8: on an empty store the new connection gets only the
status envelope; on a one-reading store it gets the status envelope
followed by that reading. -/
theorem C8_connect_registers_and_snapshots_witness :
    (onConnect exServerEmpty { id := 5, readyState := 1 }).2
      = [((5 : Nat), Envelope.connectionStatus "connected")] ∧
    (onConnect exServer { id := 12, readyState := 1 }).2
      = [((12 : Nat), Envelope.connectionStatus "connected"),
         ((12 : Nat), Envelope.sensorData exReadingA)] :=
  ⟨(C8_connect_registers_and_snapshots exServerEmpty { id := 5, readyState := 1 }).2.2.2.1
      (by decide),
   ((C8_connect_registers_and_snapshots exServer { id := 12, readyState := 1 }).2.2.2.2
      exReadingA (by decide)).1⟩

/-- Counterexample to claim C9: a payload with all three fields null fails
schema validation — the not-null `led_level` column's validator rejects
JSON null — so the message is dropped and no reading is stored, instead of
a reading with indicator level 0 being stored. -/
theorem C9_counterexample :
    decodeMessage (MqttMessage.object JsValue.jsNull JsValue.jsNull JsValue.jsNull) = none ∧
    processMessage exServerEmpty
        (MqttMessage.object JsValue.jsNull JsValue.jsNull JsValue.jsNull) 0
      = (exServerEmpty, []) ∧
    (processMessage exServerEmpty
        (MqttMessage.object JsValue.jsNull JsValue.jsNull JsValue.jsNull) 0).1.store.sensorReadings
      = [] :=
  ⟨by decide, by decide, by decide⟩

/-- Claim C9 as amended: a payload whose temperature fields are each absent
or null and whose indicator field is absent passes validation and is
stored as a reading with both temperatures null and indicator level 0 (no
minimum-field requirement); but a null indicator field fails validation
and the whole message is dropped. -/
theorem C9_amended_null_fields (st : ServerState) (now : Int) (d l : JsValue)
    (hd : d = JsValue.undef ∨ d = JsValue.jsNull)
    (hl : l = JsValue.undef ∨ l = JsValue.jsNull) :
    (processMessage st (MqttMessage.object d l JsValue.undef) now).1.store.sensorReadings
      = st.store.sensorReadings ++
        [{ id := st.store.currentReadingId, dhtTemperature := none,
           lm35Temperature := none, ledLevel := 0, timestamp := now }] ∧
    processMessage st (MqttMessage.object d l JsValue.jsNull) now = (st, []) := by
  rcases hd with rfl | rfl <;> rcases hl with rfl | rfl <;> exact ⟨rfl, rfl⟩

/-- Witness for the amended C9 at a concrete empty server: a payload with
an absent primary temperature, a null secondary temperature and an absent
indicator is stored with level 0, while the same payload with a null
indicator is dropped. -/
theorem C9_amended_null_fields_witness :
    (processMessage exServerEmpty
        (MqttMessage.object JsValue.undef JsValue.jsNull JsValue.undef) 3).1.store.sensorReadings
      = exServerEmpty.store.sensorReadings ++
        [{ id := exServerEmpty.store.currentReadingId, dhtTemperature := none,
           lm35Temperature := none, ledLevel := 0, timestamp := 3 }] ∧
    processMessage exServerEmpty
        (MqttMessage.object JsValue.undef JsValue.jsNull JsValue.jsNull) 3
      = (exServerEmpty, []) :=
  C9_amended_null_fields exServerEmpty 3 JsValue.undef JsValue.jsNull
    (Or.inl rfl) (Or.inr rfl)
